import Mathlib

/-!
Verification of the reliable-UDP transport implementation
(protocol.py, client.py, server.py).

The Python source is shallowly embedded: pure functions become Lean
functions, the mutating methods become explicit state-passing functions,
Python dictionaries become association lists, Python `bytes` become
`List Nat` with entries below 256, Python unbounded integers become `Nat`,
and Python floats (used only by the congestion controller and the RTT
estimator, whose operations here are field operations, `max`, `min`,
absolute value and truncation) are modelled by `ℚ`.  Fallible paths
(`struct` decoding, exceptions escaping `receive_packet`) are modelled
with `Except`.
-/

namespace RUDP

/-- Bytes are naturals; on the wire each entry is below 256. -/
abbrev Byte := Nat

/-- Protocol constants from protocol.py. -/
def MAX_PACKET_SIZE : Nat := 1024

/-- Header size in bytes (seq, ack, flags, window), from protocol.py. -/
def HEADER_SIZE : Nat := 14

/-- Maximum payload size: MAX_PACKET_SIZE - HEADER_SIZE = 1010. -/
def MAX_PAYLOAD_SIZE : Nat := MAX_PACKET_SIZE - HEADER_SIZE

/-- Retransmission cap from protocol.py (MAX_RETRIES = 10). -/
def MAX_RETRIES : Nat := 10

/-- Initial window size from protocol.py; the source sets it to 4 with the
comment that it was increased from 1. -/
def INITIAL_WINDOW_SIZE : Nat := 4

/-- Initial slow-start threshold from protocol.py. -/
def INITIAL_SSTHRESH : Nat := 64

/-- Maximum congestion window from protocol.py. -/
def MAX_WINDOW_SIZE : Nat := 128

/-- The four packet types of the protocol (class PacketType in protocol.py). -/
inductive PacketType
  | DATA
  | ACK
  | SYN
  | FIN
deriving DecidableEq, Repr

/-- Numeric value of a packet type, as in the Python enum. -/
def PacketType.value : PacketType → Nat
  | .DATA => 0
  | .ACK => 1
  | .SYN => 2
  | .FIN => 3

/-- Decoding a numeric tag into a packet type.  In Python this is the enum
call PacketType(flags_value), which raises ValueError on values other than
0, 1, 2, 3; `none` here marks exactly that raising case. -/
def PacketType.ofValue : Nat → Option PacketType
  | 0 => some .DATA
  | 1 => some .ACK
  | 2 => some .SYN
  | 3 => some .FIN
  | _ => none

/-- A packet (class Packet in protocol.py).  The wall-clock timestamp
attached to in-memory packets is kept separately where it matters (see
`StoredPacket`); it is not part of the wire encoding. -/
structure Packet where
  seq_num : Nat
  ack_num : Nat
  flags : PacketType
  window : Nat
  payload : List Byte
deriving DecidableEq, Repr

/-- Big-endian encoding of a value into a fixed number of bytes, the
building block of struct.pack with format !IIIH. -/
def toBytesBE : Nat → Nat → List Byte
  | 0, _ => []
  | n + 1, v => toBytesBE n (v / 256) ++ [v % 256]

/-- Big-endian decoding of a byte list, the building block of
struct.unpack with format !IIIH. -/
def fromBytesBE (l : List Byte) : Nat :=
  l.foldl (fun acc b => acc * 256 + b) 0

/-- Packet.to_bytes: header fields packed big-endian as
seq(4) ++ ack(4) ++ type(4) ++ window(2), followed by the payload. -/
def Packet.to_bytes (p : Packet) : List Byte :=
  toBytesBE 4 p.seq_num ++ toBytesBE 4 p.ack_num ++
    toBytesBE 4 p.flags.value ++ toBytesBE 2 p.window ++ p.payload

/-- Python exceptions that can escape the decode path. -/
inductive PyErr
  | valueError
deriving DecidableEq, Repr

/-- Packet.from_bytes.  Datagrams shorter than HEADER_SIZE yield `ok none`
(the Python function returns None); an unknown type tag yields
`error valueError` (the Python enum constructor raises ValueError). -/
def Packet.from_bytes (data : List Byte) : Except PyErr (Option Packet) :=
  if data.length < HEADER_SIZE then .ok none
  else
    let seq_num := fromBytesBE (data.take 4)
    let ack_num := fromBytesBE ((data.drop 4).take 4)
    let flags_value := fromBytesBE ((data.drop 8).take 4)
    let window := fromBytesBE ((data.drop 12).take 2)
    let payload := data.drop HEADER_SIZE
    match PacketType.ofValue flags_value with
    | some flags => .ok (some ⟨seq_num, ack_num, flags, window, payload⟩)
    | none => .error .valueError

/-- Outcome of the underlying socket recvfrom call: a datagram, or one of
the two exceptions that ReliableUDP.receive_packet catches. -/
inductive SockResult
  | datagram (bytes : List Byte)
  | timeoutErr
  | connResetErr
deriving DecidableEq, Repr

/-- ReliableUDP.receive_packet.  The except clause catches only
TimeoutError and ConnectionResetError (returning None); a ValueError
raised by Packet.from_bytes propagates to the caller. -/
def receive_packet : SockResult → Except PyErr (Option Packet)
  | .datagram bs => Packet.from_bytes bs
  | .timeoutErr => .ok none
  | .connResetErr => .ok none

/- Codec round-trip lemmas. -/

theorem length_toBytesBE (n v : Nat) : (toBytesBE n v).length = n := by
  induction n generalizing v with
  | zero => simp [toBytesBE]
  | succ n ih => simp [toBytesBE, ih]

theorem foldl_toBytesBE (n v acc : Nat) :
    (toBytesBE n v).foldl (fun acc b => acc * 256 + b) acc =
      acc * 256 ^ n + v % 256 ^ n := by
  induction n generalizing v acc with
  | zero => simp [toBytesBE, Nat.mod_one]
  | succ n ih =>
      rw [toBytesBE, List.foldl_append, ih]
      simp only [List.foldl_cons, List.foldl_nil]
      have h256 : 256 ^ (n + 1) = 256 ^ n * 256 := by ring
      rw [h256]
      have hmod : v % (256 ^ n * 256) = v % 256 + 256 * (v / 256 % 256 ^ n) := by
        rw [Nat.mul_comm (256 ^ n) 256, Nat.mod_mul]
      rw [hmod]
      ring

theorem fromBytesBE_toBytesBE (n v : Nat) (h : v < 256 ^ n) :
    fromBytesBE (toBytesBE n v) = v := by
  unfold fromBytesBE
  rw [foldl_toBytesBE, Nat.zero_mul, Nat.zero_add, Nat.mod_eq_of_lt h]

theorem PacketType.ofValue_value (t : PacketType) :
    PacketType.ofValue t.value = some t := by
  cases t <;> rfl

theorem PacketType.value_lt (t : PacketType) : t.value < 4 := by
  cases t <;> simp [PacketType.value]

theorem to_bytes_length (p : Packet) :
    p.to_bytes.length = 14 + p.payload.length := by
  simp [Packet.to_bytes, length_toBytesBE]
  omega

theorem to_bytes_take4 (p : Packet) :
    p.to_bytes.take 4 = toBytesBE 4 p.seq_num := by
  have h : p.to_bytes = toBytesBE 4 p.seq_num ++
      (toBytesBE 4 p.ack_num ++ toBytesBE 4 p.flags.value ++
        toBytesBE 2 p.window ++ p.payload) := by
    simp [Packet.to_bytes, List.append_assoc]
  rw [h, List.take_left' (length_toBytesBE 4 _)]

theorem to_bytes_drop4_take4 (p : Packet) :
    (p.to_bytes.drop 4).take 4 = toBytesBE 4 p.ack_num := by
  have h : p.to_bytes = toBytesBE 4 p.seq_num ++
      (toBytesBE 4 p.ack_num ++
        (toBytesBE 4 p.flags.value ++ toBytesBE 2 p.window ++ p.payload)) := by
    simp [Packet.to_bytes, List.append_assoc]
  rw [h, List.drop_left' (length_toBytesBE 4 _),
    List.take_left' (length_toBytesBE 4 _)]

theorem to_bytes_drop8_take4 (p : Packet) :
    (p.to_bytes.drop 8).take 4 = toBytesBE 4 p.flags.value := by
  have h : p.to_bytes = (toBytesBE 4 p.seq_num ++ toBytesBE 4 p.ack_num) ++
      (toBytesBE 4 p.flags.value ++ (toBytesBE 2 p.window ++ p.payload)) := by
    simp [Packet.to_bytes, List.append_assoc]
  have hlen : (toBytesBE 4 p.seq_num ++ toBytesBE 4 p.ack_num).length = 8 := by
    simp [length_toBytesBE]
  rw [h, List.drop_left' hlen, List.take_left' (length_toBytesBE 4 _)]

theorem to_bytes_drop12_take2 (p : Packet) :
    (p.to_bytes.drop 12).take 2 = toBytesBE 2 p.window := by
  have h : p.to_bytes = (toBytesBE 4 p.seq_num ++ toBytesBE 4 p.ack_num ++
      toBytesBE 4 p.flags.value) ++ (toBytesBE 2 p.window ++ p.payload) := by
    simp [Packet.to_bytes, List.append_assoc]
  have hlen : (toBytesBE 4 p.seq_num ++ toBytesBE 4 p.ack_num ++
      toBytesBE 4 p.flags.value).length = 12 := by
    simp [length_toBytesBE]
  rw [h, List.drop_left' hlen, List.take_left' (length_toBytesBE 2 _)]

theorem to_bytes_drop14 (p : Packet) :
    p.to_bytes.drop 14 = p.payload := by
  have h : p.to_bytes = (toBytesBE 4 p.seq_num ++ toBytesBE 4 p.ack_num ++
      toBytesBE 4 p.flags.value ++ toBytesBE 2 p.window) ++ p.payload := by
    simp [Packet.to_bytes, List.append_assoc]
  have hlen : (toBytesBE 4 p.seq_num ++ toBytesBE 4 p.ack_num ++
      toBytesBE 4 p.flags.value ++ toBytesBE 2 p.window).length = 14 := by
    simp [length_toBytesBE]
  rw [h, List.drop_left' hlen]

/-- C2: for every well-formed packet P (seq_num and ack_num fitting in 32
bits, window fitting in 16 bits, payload of at most 1010 bytes, type one of
DATA/ACK/SYN/FIN), decoding the encoding of P produces a packet equal to P
on seq_num, ack_num, type tag, window, and payload. -/
theorem from_bytes_to_bytes_round_trip (p : Packet)
    (h1 : p.seq_num < 2 ^ 32) (h2 : p.ack_num < 2 ^ 32)
    (h3 : p.window < 2 ^ 16) (_h4 : p.payload.length ≤ 1010) :
    Packet.from_bytes p.to_bytes = .ok (some p) := by
  have hnot : ¬ p.to_bytes.length < HEADER_SIZE := by
    rw [to_bytes_length]
    simp [HEADER_SIZE]
  unfold Packet.from_bytes
  rw [if_neg hnot]
  have e1 : fromBytesBE (p.to_bytes.take 4) = p.seq_num := by
    rw [to_bytes_take4, fromBytesBE_toBytesBE 4 _ (by norm_num at h1 ⊢; exact h1)]
  have e2 : fromBytesBE ((p.to_bytes.drop 4).take 4) = p.ack_num := by
    rw [to_bytes_drop4_take4, fromBytesBE_toBytesBE 4 _ (by norm_num at h2 ⊢; exact h2)]
  have e3 : fromBytesBE ((p.to_bytes.drop 8).take 4) = p.flags.value := by
    rw [to_bytes_drop8_take4,
      fromBytesBE_toBytesBE 4 _ (lt_trans (PacketType.value_lt p.flags) (by norm_num))]
  have e4 : fromBytesBE ((p.to_bytes.drop 12).take 2) = p.window := by
    rw [to_bytes_drop12_take2, fromBytesBE_toBytesBE 2 _ (by norm_num at h3 ⊢; exact h3)]
  simp only [HEADER_SIZE, e1, e2, e3, e4, to_bytes_drop14,
    PacketType.ofValue_value]

/-- Witness for C2 at a concrete well-formed packet. -/
theorem from_bytes_to_bytes_round_trip_witness :
    Packet.from_bytes (Packet.to_bytes ⟨1, 2, .SYN, 3, [9, 200]⟩) =
      .ok (some ⟨1, 2, .SYN, 3, [9, 200]⟩) :=
  from_bytes_to_bytes_round_trip ⟨1, 2, .SYN, 3, [9, 200]⟩
    (by norm_num) (by norm_num) (by norm_num) (by norm_num)

/- Congestion control (class CongestionControl in protocol.py).  Python
float arithmetic is modelled with rationals. -/

/-- Python int() truncation toward zero on a rational. -/
def pyInt (q : ℚ) : ℤ :=
  if 0 ≤ q then Rat.floor q else - Rat.floor (-q)

/-- Congestion-control state (class CongestionControl). -/
structure CongestionControl where
  cwnd : ℚ
  ssthresh : ℚ
  duplicate_acks : Nat
  last_ack : Nat
  in_fast_recovery : Bool
deriving DecidableEq, Repr

/-- CongestionControl.__init__: cwnd = INITIAL_WINDOW_SIZE (= 4),
ssthresh = INITIAL_SSTHRESH (= 64), no duplicate ACKs, last_ack = 0, not in
fast recovery. -/
def CongestionControl.init : CongestionControl :=
  { cwnd := (INITIAL_WINDOW_SIZE : ℚ)
    ssthresh := (INITIAL_SSTHRESH : ℚ)
    duplicate_acks := 0
    last_ack := 0
    in_fast_recovery := false }

/-- CongestionControl.on_ack_received. -/
def CongestionControl.on_ack_received (c : CongestionControl) (ack_num : Nat) :
    CongestionControl :=
  if c.last_ack < ack_num then
    let c := { c with duplicate_acks := 0, in_fast_recovery := false }
    let c :=
      if c.cwnd < c.ssthresh then { c with cwnd := c.cwnd + 1 }
      else { c with cwnd := c.cwnd + 1 / c.cwnd }
    { c with last_ack := ack_num }
  else
    let c := { c with duplicate_acks := c.duplicate_acks + 1 }
    if c.duplicate_acks = 3 ∧ c.in_fast_recovery = false then
      let ss := max (c.cwnd / 2) 2
      { c with ssthresh := ss, cwnd := ss + 3, in_fast_recovery := true }
    else if c.in_fast_recovery then { c with cwnd := c.cwnd + 1 }
    else c

/-- CongestionControl.on_timeout. -/
def CongestionControl.on_timeout (c : CongestionControl) : CongestionControl :=
  { c with
    ssthresh := max (c.cwnd / 2) 2
    cwnd := (INITIAL_WINDOW_SIZE : ℚ)
    duplicate_acks := 0
    in_fast_recovery := false }

/-- CongestionControl.get_window_size: min(int(cwnd), receiver_window,
MAX_WINDOW_SIZE). -/
def CongestionControl.get_window_size (c : CongestionControl)
    (receiver_window : Nat) : ℤ :=
  min (min (pyInt c.cwnd) (receiver_window : ℤ)) (MAX_WINDOW_SIZE : ℤ)

/-- The congestion-control states reachable from initialization through
any sequence of on_ack_received and on_timeout calls. -/
inductive CCReachable : CongestionControl → Prop
  | init : CCReachable CongestionControl.init
  | ack (c : CongestionControl) (a : Nat) :
      CCReachable c → CCReachable (c.on_ack_received a)
  | timeout (c : CongestionControl) :
      CCReachable c → CCReachable c.on_timeout

/- RTT estimation (class RTTEstimator in protocol.py). -/

/-- Default retransmission timeout (DEFAULT_TIMEOUT = 1.0 s). -/
def DEFAULT_TIMEOUT : ℚ := 1

/-- RTT-estimator state (class RTTEstimator). -/
structure RTTEstimator where
  srtt : ℚ
  rttvar : ℚ
  rto : ℚ
  measurements : Nat
deriving DecidableEq, Repr

/-- RTTEstimator.__init__: srtt = 0, rttvar = 0.75, rto = DEFAULT_TIMEOUT,
no measurements (alpha = 0.125 and beta = 0.25 are inlined in `update`). -/
def RTTEstimator.init : RTTEstimator :=
  { srtt := 0, rttvar := 3 / 4, rto := DEFAULT_TIMEOUT, measurements := 0 }

/-- RTTEstimator.update: rttvar is recomputed from the old srtt before
srtt itself is updated; the retransmission timeout is then clamped to
the interval from 0.1 s to 10 s. -/
def RTTEstimator.update (r : RTTEstimator) (rtt : ℚ) : RTTEstimator :=
  let srtt := if r.measurements = 0 then rtt else (1 - 1/8) * r.srtt + (1/8) * rtt
  let rttvar :=
    if r.measurements = 0 then rtt / 2
    else (1 - 1/4) * r.rttvar + (1/4) * |r.srtt - rtt|
  let rto := srtt + max (1/100) (4 * rttvar)
  let rto := max (1/10) (min rto 10)
  { srtt := srtt, rttvar := rttvar, rto := rto,
    measurements := r.measurements + 1 }

/-- RTTEstimator.get_timeout. -/
def RTTEstimator.get_timeout (r : RTTEstimator) : ℚ :=
  if 0 < r.measurements then r.rto else DEFAULT_TIMEOUT

/- Association-list model of Python dictionaries keyed by sequence
numbers. -/

/-- Dictionary lookup: d[k] if present. -/
def dictLookup {α : Type} (d : List (Nat × α)) (k : Nat) : Option α :=
  (d.find? (fun e => e.1 = k)).map (fun e => e.2)

/-- Dictionary update d[k] = v: replaces the value at an existing key,
otherwise appends the new binding (insertion order, as in Python). -/
def dictInsert {α : Type} (d : List (Nat × α)) (k : Nat) (v : α) :
    List (Nat × α) :=
  if d.any (fun e => e.1 = k) then
    d.map (fun e => if e.1 = k then (k, v) else e)
  else d ++ [(k, v)]

/-- Dictionary deletion of a key. -/
def dictErase {α : Type} (d : List (Nat × α)) (k : Nat) : List (Nat × α) :=
  d.filter (fun e => ¬ e.1 = k)

/- Sender (class ReliableUDPClient in client.py). -/

/-- A packet held in the send buffer together with the wall-clock
timestamp given to it by the Packet constructor when it was (re)built. -/
structure StoredPacket where
  packet : Packet
  timestamp : ℚ
deriving DecidableEq, Repr

/-- Sender state: the ReliableUDPClient attributes read or written by
_process_ack and _handle_timeout.  send_buffer maps a sequence number to
(stored packet, retry count). -/
structure ClientState where
  base : Nat
  next_seq_to_send : Nat
  send_buffer : List (Nat × StoredPacket × Nat)
  receiver_window : Nat
  window_size : Nat
  expected_seq_num : Nat
  last_ack_sent : Nat
  congestion : CongestionControl
  rtt_estimator : RTTEstimator
  retransmissions : Nat
  total_packets_sent : Nat
deriving DecidableEq, Repr

/-- ReliableUDPClient._process_ack, at wall-clock time `now`.  The second
component of the result collects the datagrams passed to sock.sendto
during the call: _process_ack transmits nothing, so it is always empty.
The set_timer/stop_timer calls are no-ops in the source. -/
def ClientState.process_ack (now : ℚ) (s : ClientState) (ack_packet : Packet) :
    ClientState × List Packet :=
  let s := { s with receiver_window := ack_packet.window }
  let s := { s with congestion := s.congestion.on_ack_received ack_packet.ack_num }
  if s.base < ack_packet.ack_num then
    let rtt_estimator :=
      match dictLookup s.send_buffer s.base with
      | some (sp, _) => s.rtt_estimator.update (now - sp.timestamp)
      | none => s.rtt_estimator
    ({ s with
        rtt_estimator := rtt_estimator
        send_buffer := s.send_buffer.filter (fun e => ¬ e.1 < ack_packet.ack_num)
        base := ack_packet.ack_num }, [])
  else (s, [])

/-- ReliableUDPClient._handle_timeout, at wall-clock time `now`.  The
congestion controller is updated first; if the base segment has already
been retried MAX_RETRIES times the function only logs and returns (no
exception is raised anywhere in the source function, so the embedding is
total); otherwise the base segment is rebuilt with the current advertised
window, retransmitted, and its retry count incremented. -/
def ClientState.handle_timeout (now : ℚ) (s : ClientState) :
    ClientState × List Packet :=
  let s := { s with congestion := s.congestion.on_timeout }
  match dictLookup s.send_buffer s.base with
  | some (sp, retries) =>
      if MAX_RETRIES ≤ retries then (s, [])
      else
        let updated : Packet :=
          { seq_num := sp.packet.seq_num
            ack_num := sp.packet.ack_num
            flags := sp.packet.flags
            window := s.window_size
            payload := sp.packet.payload }
        ({ s with
            retransmissions := s.retransmissions + 1
            send_buffer :=
              dictInsert s.send_buffer s.base (⟨updated, now⟩, retries + 1) },
          [updated])
  | none => (s, [])

/- Receiver (class ReliableUDPServer in server.py). -/

/-- Receiver state: the ReliableUDPServer attributes read or written by
_handle_data_packet and _update_window_size.  `delivered` is the stream
written to the output file (or data_buffer). -/
structure ServerState where
  sequence_number : Nat
  expected_seq_num : Nat
  receive_buffer : List (Nat × Packet)
  window_size : Nat
  client_window : Nat
  processing_bytes : Nat
  received_packets : Nat
  dropped_packets : Nat
  out_of_order_packets : Nat
  total_bytes : Nat
  delivered : List Byte
deriving DecidableEq, Repr

/-- Receive-buffer capacity in bytes: max_window_size (64) segments of
MAX_PAYLOAD_SIZE bytes. -/
def buffer_capacity : Nat := 64 * MAX_PAYLOAD_SIZE

/-- ReliableUDPServer._update_window_size.  Nat subtraction truncates at
zero exactly like the max(0, ...) in the source. -/
def ServerState.update_window_size (s : ServerState) : ServerState :=
  let buffer_usage := (s.receive_buffer.map (fun e => e.2.payload.length)).sum
  let total_buffer_usage := buffer_usage + s.processing_bytes
  let available_space := buffer_capacity - total_buffer_usage
  { s with window_size := max 1 (available_space / MAX_PAYLOAD_SIZE) }

/-- An ACK emitted through ReliableUDP.send_packet: its sequence number is
the server's current sequence number, which is not advanced for non-DATA
packets. -/
def ServerState.mkAck (s : ServerState) : Packet :=
  { seq_num := s.sequence_number
    ack_num := s.expected_seq_num
    flags := .ACK
    window := s.window_size
    payload := [] }

/-- ReliableUDPServer._handle_data_packet.  `drop` is the outcome of the
loss-simulation draw random.random() < packet_loss_rate.  The second
component of the result is the list of packets sent during the call
(always exactly one cumulative ACK).  processing_bytes is incremented and
then decremented around each delivery, a net no-op kept implicit here.
The candidate list of buffered sequence numbers is computed once, filtered
by equality with the just-updated expected_seq_num (the sorting in the
source is the identity on such a list), so at most one buffered
entry per distinct key can be popped in a single call. -/
def ServerState.handle_data_packet (drop : Bool) (s : ServerState)
    (packet : Packet) : ServerState × List Packet :=
  if drop then
    let s := { s with dropped_packets := s.dropped_packets + 1 }
    let s := s.update_window_size
    (s, [s.mkAck])
  else
    let s := { s with received_packets := s.received_packets + 1 }
    let s :=
      if packet.seq_num = s.expected_seq_num then
        let s := { s with
          delivered := s.delivered ++ packet.payload
          total_bytes := s.total_bytes + packet.payload.length
          expected_seq_num := s.expected_seq_num + packet.payload.length }
        let ordered_keys :=
          (s.receive_buffer.map (fun e => e.1)).filter
            (fun k => k = s.expected_seq_num)
        ordered_keys.foldl (fun s seq =>
          match dictLookup s.receive_buffer seq with
          | some bp =>
              { s with
                receive_buffer := dictErase s.receive_buffer seq
                delivered := s.delivered ++ bp.payload
                total_bytes := s.total_bytes + bp.payload.length
                expected_seq_num := s.expected_seq_num + bp.payload.length }
          | none => s) s
      else if s.expected_seq_num < packet.seq_num then
        { s with
          out_of_order_packets := s.out_of_order_packets + 1
          receive_buffer := dictInsert s.receive_buffer packet.seq_num packet }
      else s
    let s := s.update_window_size
    (s, [s.mkAck])

/- End-to-end transfer model for the data phase (client.py send paths and
server.py receive path over an unreliable network).  The network is a bag
of in-flight messages; steps may lose, duplicate, and pick messages in any
order.  Messages carry the delivery-relevant packet fields: a DATA message
its sequence number and payload, an ACK message its acknowledgment
number. -/

/-- An in-flight message. -/
inductive Msg
  | data (seq : Nat) (payload : List Byte)
  | ack (num : Nat)
deriving DecidableEq, Repr

/-- Joint configuration: sender window state (sBase, sNext, sBuf mirror
base, next_seq_to_send and the payload view of send_buffer in client.py),
receiver reassembly state (rExpected, rBuf, delivered mirror
expected_seq_num, receive_buffer and the output stream in server.py), and
the bag of in-flight messages.  -/
structure Config where
  sBase : Nat
  sNext : Nat
  sBuf : List (Nat × List Byte)
  rExpected : Nat
  rBuf : List (Nat × List Byte)
  delivered : List Byte
  net : List Msg
deriving DecidableEq, Repr

/-- Configuration right after the handshake: the sender's base and next
sequence number and the receiver's expected sequence number all equal the
sender's post-handshake initial sequence number. -/
def initConfig (isn : Nat) : Config :=
  { sBase := isn, sNext := isn, sBuf := [], rExpected := isn, rBuf := [],
    delivered := [], net := [] }

/-- Transmission of the next fresh chunk (client.py _send_data_chunk fed
by file.read(MAX_PAYLOAD_SIZE) on the stream `S`): the chunk is the next
at-most-1010-byte slice of the stream, recorded in the send buffer under
the current sequence number, which then advances by the chunk length. -/
def sendChunk (S : List Byte) (isn : Nat) (c : Config) : Config :=
  let off := c.sNext - isn
  let chunk := (S.drop off).take MAX_PAYLOAD_SIZE
  { c with
    sBuf := c.sBuf ++ [(c.sNext, chunk)]
    sNext := c.sNext + chunk.length
    net := c.net ++ [.data c.sNext chunk] }

/-- Retransmission of a buffered segment (client.py _handle_timeout): the
stored sequence number and payload are preserved on the wire. -/
def retransStep (c : Config) (k : Nat) (p : List Byte) : Config :=
  { c with net := c.net ++ [.data k p] }

/-- Consumption of an ACK by the sender (the base/buffer part of client.py
_process_ack): an ACK beyond base advances base and drops every buffered
entry below it; any other ACK changes nothing. -/
def ackStep (c : Config) (a : Nat) : Config :=
  if c.sBase < a then
    { c with
      sBase := a
      sBuf := c.sBuf.filter (fun e => ¬ e.1 < a)
      net := c.net.erase (.ack a) }
  else { c with net := c.net.erase (.ack a) }

/-- Consumption of a DATA message by the receiver (the delivery-relevant
part of server.py _handle_data_packet with the loss simulation drawing
false): the expected segment is delivered, the expected sequence number
advances, at most one buffered entry at the new expected sequence number
is popped and delivered, and a cumulative ACK is emitted; an out-of-order
segment is buffered; an old segment is discarded; the cumulative ACK
carries the final expected sequence number. -/
def recvStep (c : Config) (s : Nat) (p : List Byte) : Config :=
  let net := c.net.erase (.data s p)
  if s = c.rExpected then
    let delivered := c.delivered ++ p
    let expected := c.rExpected + p.length
    match dictLookup c.rBuf expected with
    | some q =>
        { c with
          delivered := delivered ++ q
          rExpected := expected + q.length
          rBuf := dictErase c.rBuf expected
          net := net ++ [.ack (expected + q.length)] }
    | none =>
        { c with delivered := delivered, rExpected := expected,
                 net := net ++ [.ack expected] }
  else if c.rExpected < s then
    { c with rBuf := dictInsert c.rBuf s p, net := net ++ [.ack c.rExpected] }
  else
    { c with net := net ++ [.ack c.rExpected] }

/-- One step of the joint system: the sender fills its window or
retransmits, an endpoint consumes a message, the receiver re-emits its
cumulative ACK (the loss-simulation reply path), or the network loses or
duplicates a message. -/
inductive Step (S : List Byte) (isn : Nat) : Config → Config → Prop
  | send (c : Config) (h : c.sNext - isn < S.length) :
      Step S isn c (sendChunk S isn c)
  | retrans (c : Config) (k : Nat) (p : List Byte) (h : (k, p) ∈ c.sBuf) :
      Step S isn c (retransStep c k p)
  | ack (c : Config) (a : Nat) (h : Msg.ack a ∈ c.net) :
      Step S isn c (ackStep c a)
  | recvData (c : Config) (s : Nat) (p : List Byte)
      (h : Msg.data s p ∈ c.net) : Step S isn c (recvStep c s p)
  | ackCurrent (c : Config) :
      Step S isn c { c with net := c.net ++ [.ack c.rExpected] }
  | drop (c : Config) (m : Msg) (h : m ∈ c.net) :
      Step S isn c { c with net := c.net.erase m }
  | dup (c : Config) (m : Msg) (h : m ∈ c.net) :
      Step S isn c { c with net := c.net ++ [m] }

/-- Finitely many steps. -/
def Steps (S : List Byte) (isn : Nat) : Config → Config → Prop :=
  Relation.ReflTransGen (Step S isn)

/-- A DATA payload is consistent with the stream: it sits at or after the
initial sequence number and is exactly the corresponding slice of `S`. -/
def goodData (S : List Byte) (isn s : Nat) (p : List Byte) : Prop :=
  isn ≤ s ∧ p = (S.drop (s - isn)).take p.length ∧
    (s - isn) + p.length ≤ S.length

/-- The safety invariant of the transfer. -/
structure Inv (S : List Byte) (isn : Nat) (c : Config) : Prop where
  base_le : c.sBase ≤ c.rExpected
  next_ge : isn ≤ c.sNext
  next_le : c.sNext - isn ≤ S.length
  exp_ge : isn ≤ c.rExpected
  exp_le : c.rExpected - isn ≤ S.length
  deliv : c.delivered = S.take (c.rExpected - isn)
  net_data : ∀ s p, Msg.data s p ∈ c.net → goodData S isn s p
  net_ack : ∀ a, Msg.ack a ∈ c.net → a ≤ c.rExpected
  sbuf : ∀ e ∈ c.sBuf, goodData S isn e.1 e.2
  rbuf : ∀ e ∈ c.rBuf, goodData S isn e.1 e.2

/- Dictionary and buffer membership lemmas. -/

theorem dictLookup_some_mem {α : Type} {d : List (Nat × α)} {k : Nat}
    {v : α} (h : dictLookup d k = some v) : (k, v) ∈ d := by
  unfold dictLookup at h
  cases hf : d.find? (fun e => e.1 = k) with
  | none =>
      rw [hf] at h
      exact Option.noConfusion h
  | some e =>
      rw [hf] at h
      have hv : e.2 = v := Option.some.inj h
      have hm := List.mem_of_find?_eq_some hf
      have hp := List.find?_some hf
      simp only [decide_eq_true_eq] at hp
      have he : e = (k, v) := by
        cases e
        simp_all
      rwa [he] at hm

theorem mem_dictInsert {α : Type} {d : List (Nat × α)} {k : Nat} {v : α}
    {x : Nat × α} (h : x ∈ dictInsert d k v) : x = (k, v) ∨ x ∈ d := by
  unfold dictInsert at h
  by_cases hc : d.any (fun e => e.1 = k)
  · rw [if_pos hc] at h
    obtain ⟨e, he, hfe⟩ := List.mem_map.mp h
    by_cases hek : e.1 = k
    · left; rw [← hfe]; simp [hek]
    · right; rw [← hfe]; simpa [hek] using he
  · rw [if_neg hc] at h
    rcases List.mem_append.mp h with h1 | h1
    · right; exact h1
    · left; simpa using h1

theorem mem_dictErase {α : Type} {d : List (Nat × α)} {k : Nat}
    {x : Nat × α} (h : x ∈ dictErase d k) : x ∈ d :=
  List.mem_of_mem_filter h

/- Invariant preservation. -/

theorem inv_initConfig (S : List Byte) (isn : Nat) :
    Inv S isn (initConfig isn) := by
  refine ⟨Nat.le_refl _, Nat.le_refl _, by simp [initConfig],
    Nat.le_refl _, by simp [initConfig], by simp [initConfig],
    ?_, ?_, ?_, ?_⟩
  · intro s p hm
    simp [initConfig] at hm
  · intro a hm
    simp [initConfig] at hm
  · intro e he
    simp [initConfig] at he
  · intro e he
    simp [initConfig] at he

theorem goodData_chunk (S : List Byte) (isn next : Nat) (hge : isn ≤ next)
    (hlt : next - isn < S.length) :
    goodData S isn next ((S.drop (next - isn)).take MAX_PAYLOAD_SIZE) := by
  have hdlen : (S.drop (next - isn)).length = S.length - (next - isn) :=
    List.length_drop _ _
  have hlen : ((S.drop (next - isn)).take MAX_PAYLOAD_SIZE).length =
      min MAX_PAYLOAD_SIZE (S.length - (next - isn)) := by
    rw [List.length_take, hdlen]
  refine ⟨hge, ?_, ?_⟩
  · apply (List.take_eq_take).mpr
    rw [hlen, hdlen]
    omega
  · rw [hlen]
    omega

theorem inv_step {S : List Byte} {isn : Nat} {c c₂ : Config}
    (hI : Inv S isn c) (hs : Step S isn c c₂) : Inv S isn c₂ := by
  cases hs with
  | send h =>
      obtain ⟨hg1, hg2, hg3⟩ := goodData_chunk S isn c.sNext hI.next_ge h
      have hlen : ((S.drop (c.sNext - isn)).take MAX_PAYLOAD_SIZE).length ≤
          S.length - (c.sNext - isn) := by
        rw [List.length_take, List.length_drop]
        omega
      refine ⟨hI.base_le, ?_, ?_, hI.exp_ge, hI.exp_le, hI.deliv, ?_, ?_, ?_,
        hI.rbuf⟩
      · simp [sendChunk]
        omega
      · simp only [sendChunk]
        have := hI.next_ge
        omega
      · intro s p hm
        simp only [sendChunk, List.mem_append, List.mem_singleton] at hm
        rcases hm with hm | hm
        · exact hI.net_data s p hm
        · cases hm
          exact ⟨hg1, hg2, hg3⟩
      · intro a hm
        simp only [sendChunk, List.mem_append, List.mem_singleton] at hm
        rcases hm with hm | hm
        · exact hI.net_ack a hm
        · cases hm
      · intro e he
        simp only [sendChunk, List.mem_append, List.mem_singleton] at he
        rcases he with he | he
        · exact hI.sbuf e he
        · cases he
          exact ⟨hg1, hg2, hg3⟩
  | retrans k p h =>
      refine ⟨hI.base_le, hI.next_ge, hI.next_le, hI.exp_ge, hI.exp_le,
        hI.deliv, ?_, ?_, hI.sbuf, hI.rbuf⟩
      · intro s q hm
        simp only [retransStep, List.mem_append, List.mem_singleton] at hm
        rcases hm with hm | hm
        · exact hI.net_data s q hm
        · cases hm
          exact hI.sbuf (k, p) h
      · intro a hm
        simp only [retransStep, List.mem_append, List.mem_singleton] at hm
        rcases hm with hm | hm
        · exact hI.net_ack a hm
        · cases hm
  | ack a h =>
      have hale : a ≤ c.rExpected := hI.net_ack a h
      unfold ackStep
      by_cases hba : c.sBase < a
      · rw [if_pos hba]
        refine ⟨hale, hI.next_ge, hI.next_le, hI.exp_ge, hI.exp_le, hI.deliv,
          ?_, ?_, ?_, hI.rbuf⟩
        · intro s p hm
          exact hI.net_data s p (List.mem_of_mem_erase hm)
        · intro b hm
          exact hI.net_ack b (List.mem_of_mem_erase hm)
        · intro e he
          exact hI.sbuf e (List.mem_of_mem_filter he)
      · rw [if_neg hba]
        refine ⟨hI.base_le, hI.next_ge, hI.next_le, hI.exp_ge, hI.exp_le,
          hI.deliv, ?_, ?_, hI.sbuf, hI.rbuf⟩
        · intro s p hm
          exact hI.net_data s p (List.mem_of_mem_erase hm)
        · intro b hm
          exact hI.net_ack b (List.mem_of_mem_erase hm)
  | recvData s p h =>
      obtain ⟨hg1, hg2, hg3⟩ := hI.net_data s p h
      by_cases hse : s = c.rExpected
      · subst hse
        have hdel1 : c.delivered ++ p =
            S.take ((c.rExpected - isn) + p.length) := by
          rw [hI.deliv, List.take_add, ← hg2]
        cases hq : dictLookup c.rBuf (c.rExpected + p.length) with
        | some q =>
            obtain ⟨hq1, hq2, hq3⟩ := hI.rbuf _ (dictLookup_some_mem hq)
            simp only at hq1 hq2 hq3
            have hoff : c.rExpected + p.length - isn =
                (c.rExpected - isn) + p.length := by
              omega
            have hr : recvStep c c.rExpected p = { c with
                delivered := c.delivered ++ p ++ q
                rExpected := c.rExpected + p.length + q.length
                rBuf := dictErase c.rBuf (c.rExpected + p.length)
                net := c.net.erase (.data c.rExpected p) ++
                  [.ack (c.rExpected + p.length + q.length)] } := by
              simp [recvStep, hq]
            rw [hr]
            have hdel2 : c.delivered ++ p ++ q =
                S.take ((c.rExpected - isn) + p.length + q.length) := by
              rw [List.take_add, ← hdel1]
              congr 1
              rw [hoff] at hq2
              exact hq2
            have hexp := hI.exp_ge
            refine ⟨?_, hI.next_ge, hI.next_le, ?_, ?_, ?_, ?_, ?_, hI.sbuf,
              ?_⟩
            · have := hI.base_le
              simp only
              omega
            · simp only
              omega
            · simp only
              rw [hoff] at hq3
              omega
            · simp only
              rw [hdel2]
              congr 1
              omega
            · intro s2 p2 hm
              simp only [List.mem_append, List.mem_singleton] at hm
              rcases hm with hm | hm
              · exact hI.net_data s2 p2 (List.mem_of_mem_erase hm)
              · cases hm
            · intro b hm
              simp only [List.mem_append, List.mem_singleton] at hm
              rcases hm with hm | hm
              · have := hI.net_ack b (List.mem_of_mem_erase hm)
                simp only
                omega
              · cases hm
                simp only
                omega
            · intro e he
              exact hI.rbuf e (mem_dictErase he)
        | none =>
            have hr : recvStep c c.rExpected p = { c with
                delivered := c.delivered ++ p
                rExpected := c.rExpected + p.length
                net := c.net.erase (.data c.rExpected p) ++
                  [.ack (c.rExpected + p.length)] } := by
              simp [recvStep, hq]
            rw [hr]
            have hexp := hI.exp_ge
            refine ⟨?_, hI.next_ge, hI.next_le, ?_, ?_, ?_, ?_, ?_, hI.sbuf,
              hI.rbuf⟩
            · have := hI.base_le
              simp only
              omega
            · simp only
              omega
            · simp only
              omega
            · simp only
              rw [hdel1]
              congr 1
              omega
            · intro s2 p2 hm
              simp only [List.mem_append, List.mem_singleton] at hm
              rcases hm with hm | hm
              · exact hI.net_data s2 p2 (List.mem_of_mem_erase hm)
              · cases hm
            · intro b hm
              simp only [List.mem_append, List.mem_singleton] at hm
              rcases hm with hm | hm
              · have := hI.net_ack b (List.mem_of_mem_erase hm)
                simp only
                omega
              · cases hm
                simp only
                omega
      · by_cases hlt : c.rExpected < s
        · have hr : recvStep c s p = { c with
              rBuf := dictInsert c.rBuf s p
              net := c.net.erase (.data s p) ++ [.ack c.rExpected] } := by
            simp [recvStep, hse, hlt]
          rw [hr]
          refine ⟨hI.base_le, hI.next_ge, hI.next_le, hI.exp_ge, hI.exp_le,
            hI.deliv, ?_, ?_, hI.sbuf, ?_⟩
          · intro s2 p2 hm
            simp only [List.mem_append, List.mem_singleton] at hm
            rcases hm with hm | hm
            · exact hI.net_data s2 p2 (List.mem_of_mem_erase hm)
            · cases hm
          · intro b hm
            simp only [List.mem_append, List.mem_singleton] at hm
            rcases hm with hm | hm
            · exact hI.net_ack b (List.mem_of_mem_erase hm)
            · cases hm
              exact le_refl _
          · intro e he
            rcases mem_dictInsert he with he | he
            · rw [he]
              exact ⟨hg1, hg2, hg3⟩
            · exact hI.rbuf e he
        · have hr : recvStep c s p = { c with
              net := c.net.erase (.data s p) ++ [.ack c.rExpected] } := by
            simp [recvStep, hse, hlt]
          rw [hr]
          refine ⟨hI.base_le, hI.next_ge, hI.next_le, hI.exp_ge, hI.exp_le,
            hI.deliv, ?_, ?_, hI.sbuf, hI.rbuf⟩
          · intro s2 p2 hm
            simp only [List.mem_append, List.mem_singleton] at hm
            rcases hm with hm | hm
            · exact hI.net_data s2 p2 (List.mem_of_mem_erase hm)
            · cases hm
          · intro b hm
            simp only [List.mem_append, List.mem_singleton] at hm
            rcases hm with hm | hm
            · exact hI.net_ack b (List.mem_of_mem_erase hm)
            · cases hm
              exact le_refl _
  | ackCurrent =>
      refine ⟨hI.base_le, hI.next_ge, hI.next_le, hI.exp_ge, hI.exp_le,
        hI.deliv, ?_, ?_, hI.sbuf, hI.rbuf⟩
      · intro s p hm
        simp only [List.mem_append, List.mem_singleton] at hm
        rcases hm with hm | hm
        · exact hI.net_data s p hm
        · cases hm
      · intro b hm
        simp only [List.mem_append, List.mem_singleton] at hm
        rcases hm with hm | hm
        · exact hI.net_ack b hm
        · cases hm
          exact le_refl _
  | drop m h =>
      refine ⟨hI.base_le, hI.next_ge, hI.next_le, hI.exp_ge, hI.exp_le,
        hI.deliv, ?_, ?_, hI.sbuf, hI.rbuf⟩
      · intro s p hm
        exact hI.net_data s p (List.mem_of_mem_erase hm)
      · intro b hm
        exact hI.net_ack b (List.mem_of_mem_erase hm)
  | dup m h =>
      refine ⟨hI.base_le, hI.next_ge, hI.next_le, hI.exp_ge, hI.exp_le,
        hI.deliv, ?_, ?_, hI.sbuf, hI.rbuf⟩
      · intro s p hm
        simp only [List.mem_append, List.mem_singleton] at hm
        rcases hm with hm | hm
        · exact hI.net_data s p hm
        · exact hI.net_data s p (hm ▸ h)
      · intro b hm
        simp only [List.mem_append, List.mem_singleton] at hm
        rcases hm with hm | hm
        · exact hI.net_ack b hm
        · exact hI.net_ack b (hm ▸ h)

theorem inv_steps {S : List Byte} {isn : Nat} {c c₂ : Config}
    (hI : Inv S isn c) (hs : Steps S isn c c₂) : Inv S isn c₂ := by
  induction hs with
  | refl => exact hI
  | tail _ h ih => exact inv_step ih h

/-- C1: for every byte sequence S of length below 2^31, a successful run
of the sender transmitting S to the receiver (a run from the
post-handshake configuration in which every byte has been cumulatively
acknowledged, the sender's base having reached isn + |S|) results in the
receiver having written exactly the bytes of S, in order, to its output,
despite loss, reordering, and duplication on the underlying network. -/
theorem end_to_end_delivery (S : List Byte) (isn : Nat)
    (hlen : S.length < 2 ^ 31) (c : Config)
    (hrun : Steps S isn (initConfig isn) c)
    (hdone : c.sBase = isn + S.length) :
    c.delivered = S := by
  have hI := inv_steps (inv_initConfig S isn) hrun
  have h1 : isn + S.length ≤ c.rExpected := hdone ▸ hI.base_le
  have h2 : c.rExpected - isn ≤ S.length := hI.exp_le
  have h3 : c.rExpected - isn = S.length := by
    have := hI.exp_ge
    omega
  rw [hI.deliv, h3, List.take_length]

/-- Witness for C1: the two-byte stream [7, 13] from initial sequence
number 5, over the run send, deliver, acknowledge. -/
theorem end_to_end_delivery_witness :
    (ackStep (recvStep (sendChunk [7, 13] 5 (initConfig 5)) 5
        ((([7, 13] : List Byte).drop 0).take MAX_PAYLOAD_SIZE)) 7).delivered
      = [7, 13] :=
  end_to_end_delivery [7, 13] 5 (by decide) _
    (Relation.ReflTransGen.tail
      (Relation.ReflTransGen.tail
        (Relation.ReflTransGen.single (Step.send _ (by decide)))
        (Step.recvData _ 5 _ (by decide)))
      (Step.ack _ 7 (by decide)))
    (by decide)

/- C6: short datagrams versus unknown type tags. -/

/-- Counterexample for C6: the 14-byte datagram whose type-tag field holds
7 is not dropped silently; Packet.from_bytes raises ValueError (modelled
as the error value), and the error propagates out of receive_packet, whose
handler catches only TimeoutError and ConnectionResetError. -/
theorem unknown_tag_raises :
    Packet.from_bytes [0, 0, 0, 0, 0, 0, 0, 0, 0, 0, 0, 7, 0, 0] =
        .error .valueError ∧
      receive_packet (.datagram [0, 0, 0, 0, 0, 0, 0, 0, 0, 0, 0, 7, 0, 0]) =
        .error .valueError := by
  constructor <;> rfl

/-- C6 as amended: a datagram of fewer than 14 bytes is rejected silently
(the decoder returns none), but a datagram of at least 14 bytes whose
type-tag field holds a value other than 0, 1, 2, 3 makes the decoder raise
ValueError, and that error escapes the receive path; only socket timeouts
and connection resets are absorbed silently there. -/
theorem short_or_unknown_tag_behaviour :
    (∀ bs : List Byte, bs.length < 14 → Packet.from_bytes bs = .ok none) ∧
    (∀ bs : List Byte, 14 ≤ bs.length →
      PacketType.ofValue (fromBytesBE ((bs.drop 8).take 4)) = none →
      Packet.from_bytes bs = .error .valueError ∧
      receive_packet (.datagram bs) = .error .valueError) ∧
    receive_packet .timeoutErr = .ok none ∧
    receive_packet .connResetErr = .ok none := by
  refine ⟨?_, ?_, rfl, rfl⟩
  · intro bs h
    have hcond : bs.length < HEADER_SIZE := by
      simpa [HEADER_SIZE] using h
    simp [Packet.from_bytes, hcond]
  · intro bs h1 h2
    have hcond : ¬ bs.length < HEADER_SIZE := by
      simp [HEADER_SIZE]
      omega
    constructor
    · simp [Packet.from_bytes, hcond, h2]
    · simp [receive_packet, Packet.from_bytes, hcond, h2]

/-- Witness for C6 as amended at a 3-byte datagram and at a 14-byte
datagram with type tag 9. -/
theorem short_or_unknown_tag_behaviour_witness :
    Packet.from_bytes [1, 2, 3] = .ok none ∧
      Packet.from_bytes [0, 0, 0, 0, 0, 0, 0, 0, 0, 0, 0, 9, 0, 0] =
        .error .valueError :=
  ⟨short_or_unknown_tag_behaviour.1 [1, 2, 3] (by decide),
    (short_or_unknown_tag_behaviour.2.1
      [0, 0, 0, 0, 0, 0, 0, 0, 0, 0, 0, 9, 0, 0] (by decide) (by decide)).1⟩

/- C7: initial congestion state and timeout response. -/

/-- Counterexample for C7: the congestion controller is initialized with
cwnd = 4 segments (INITIAL_WINDOW_SIZE, which the source deliberately
raised from 1), not 1, and a timeout resets cwnd to 4, not 1. -/
theorem init_cwnd_is_four :
    CongestionControl.init.cwnd = 4 ∧ ¬ CongestionControl.init.cwnd = 1 ∧
      CongestionControl.init.on_timeout.cwnd = 4 ∧
      ¬ CongestionControl.init.on_timeout.cwnd = 1 := by
  refine ⟨?_, ?_, ?_, ?_⟩ <;>
    norm_num [CongestionControl.init, CongestionControl.on_timeout,
      INITIAL_WINDOW_SIZE]

/-- C7 as amended: the controller is initialized with cwnd = 4 segments
and ssthresh = 64 segments, and every timeout event sets ssthresh to
max(cwnd/2, 2), resets cwnd to 4 segments (INITIAL_WINDOW_SIZE), zeroes
duplicate_acks, and leaves fast recovery; after any timeout event
cwnd = 4 and ssthresh is at least 2. -/
theorem timeout_resets_controller (c : CongestionControl) :
    CongestionControl.init.cwnd = 4 ∧ CongestionControl.init.ssthresh = 64 ∧
      c.on_timeout = { c with
        ssthresh := max (c.cwnd / 2) 2
        cwnd := 4
        duplicate_acks := 0
        in_fast_recovery := false } ∧
      c.on_timeout.cwnd = 4 ∧ 2 ≤ c.on_timeout.ssthresh := by
  refine ⟨?_, ?_, ?_, ?_, ?_⟩
  · norm_num [CongestionControl.init, INITIAL_WINDOW_SIZE]
  · norm_num [CongestionControl.init, INITIAL_SSTHRESH]
  · simp [CongestionControl.on_timeout, INITIAL_WINDOW_SIZE]
  · simp [CongestionControl.on_timeout, INITIAL_WINDOW_SIZE]
  · simp only [CongestionControl.on_timeout]
    exact le_max_right (c.cwnd / 2) 2

/- Characterizations of CongestionControl.on_ack_received used below. -/

theorem cc_new_ack_fields (c : CongestionControl) (a : Nat)
    (h : c.last_ack < a) :
    (c.on_ack_received a).duplicate_acks = 0 ∧
      (c.on_ack_received a).in_fast_recovery = false ∧
      (c.on_ack_received a).last_ack = a := by
  simp only [CongestionControl.on_ack_received]
  rw [if_pos h]
  split <;> exact ⟨rfl, rfl, rfl⟩

theorem cc_third_dup (c : CongestionControl) (a : Nat)
    (h : ¬ c.last_ack < a) (h2 : c.duplicate_acks = 2)
    (h3 : c.in_fast_recovery = false) :
    c.on_ack_received a = { c with
      duplicate_acks := 3
      ssthresh := max (c.cwnd / 2) 2
      cwnd := max (c.cwnd / 2) 2 + 3
      in_fast_recovery := true } := by
  simp only [CongestionControl.on_ack_received]
  rw [if_neg h]
  split
  · next hc =>
      rw [h2]
  · next hc =>
      exact absurd ⟨by rw [h2], h3⟩ hc

theorem cc_dup_in_recovery (c : CongestionControl) (a : Nat)
    (h : ¬ c.last_ack < a) (h3 : c.in_fast_recovery = true) :
    c.on_ack_received a = { c with
      duplicate_acks := c.duplicate_acks + 1
      cwnd := c.cwnd + 1 } := by
  simp only [CongestionControl.on_ack_received]
  rw [if_neg h]
  split
  · next hc =>
      exfalso
      rw [h3] at hc
      exact Bool.noConfusion hc.2
  · rw [h3]

theorem cc_dup_quiet (c : CongestionControl) (a : Nat)
    (h : ¬ c.last_ack < a) (h2 : c.duplicate_acks + 1 ≠ 3)
    (h3 : c.in_fast_recovery = false) :
    c.on_ack_received a = { c with
      duplicate_acks := c.duplicate_acks + 1 } := by
  simp only [CongestionControl.on_ack_received]
  rw [if_neg h]
  split
  · next hc => exact absurd hc.1 h2
  · rw [h3]
    rfl

/-- C8: when the congestion controller processes the third duplicate ACK
(duplicate count going from 2 to 3) while not already in fast recovery, it
sets ssthresh to max(prev_cwnd/2, 2) and cwnd to ssthresh + 3 and enters
fast recovery; every further duplicate ACK processed while in fast
recovery increases cwnd by exactly 1. -/
theorem third_dup_enters_fast_recovery (c : CongestionControl) (a : Nat)
    (hdup : a ≤ c.last_ack) :
    (c.duplicate_acks = 2 → c.in_fast_recovery = false →
      (c.on_ack_received a).ssthresh = max (c.cwnd / 2) 2 ∧
      (c.on_ack_received a).cwnd = (c.on_ack_received a).ssthresh + 3 ∧
      (c.on_ack_received a).in_fast_recovery = true) ∧
    (c.in_fast_recovery = true →
      (c.on_ack_received a).cwnd = c.cwnd + 1) := by
  have hn : ¬ c.last_ack < a := Nat.not_lt.mpr hdup
  constructor
  · intro h2 h3
    rw [cc_third_dup c a hn h2 h3]
    exact ⟨rfl, rfl, rfl⟩
  · intro h3
    rw [cc_dup_in_recovery c a hn h3]

/-- Witness for C8: a controller with cwnd = 10, two duplicate ACKs
recorded, not in fast recovery, receiving a third duplicate of ACK 5. -/
theorem third_dup_enters_fast_recovery_witness :
    ((⟨10, 64, 2, 5, false⟩ : CongestionControl).on_ack_received 5).ssthresh =
        max ((10 : ℚ) / 2) 2 ∧
      ((⟨10, 64, 2, 5, false⟩ : CongestionControl).on_ack_received 5).cwnd =
        ((⟨10, 64, 2, 5, false⟩ : CongestionControl).on_ack_received 5).ssthresh
          + 3 ∧
      ((⟨10, 64, 2, 5, false⟩ : CongestionControl).on_ack_received 5).in_fast_recovery
        = true :=
  (third_dup_enters_fast_recovery ⟨10, 64, 2, 5, false⟩ 5 (le_refl 5)).1
    rfl rfl

/- C10: reachable congestion states keep cwnd at least 1 and ssthresh at
least 2. -/

theorem pyInt_ge_one (q : ℚ) (h : 1 ≤ q) : (1 : ℤ) ≤ pyInt q := by
  unfold pyInt
  rw [if_pos (le_trans zero_le_one h)]
  exact Rat.le_floor.mpr (by exact_mod_cast h)

theorem get_window_size_pos (c : CongestionControl) (h1 : 1 ≤ c.cwnd)
    (rw : Nat) (hrw : 1 ≤ rw) : 1 ≤ c.get_window_size rw := by
  unfold CongestionControl.get_window_size
  have h2 : (1 : ℤ) ≤ pyInt c.cwnd := pyInt_ge_one c.cwnd h1
  have h3 : (1 : ℤ) ≤ (rw : ℤ) := by exact_mod_cast hrw
  have h4 : (1 : ℤ) ≤ (MAX_WINDOW_SIZE : ℤ) := by norm_num [MAX_WINDOW_SIZE]
  omega

theorem cc_bounds_ack (c : CongestionControl) (a : Nat) (h1 : 1 ≤ c.cwnd)
    (h2 : 2 ≤ c.ssthresh) :
    1 ≤ (c.on_ack_received a).cwnd ∧ 2 ≤ (c.on_ack_received a).ssthresh := by
  simp only [CongestionControl.on_ack_received]
  split
  · split
    · next => exact ⟨by simp only; linarith, h2⟩
    · next =>
        have hpos : 0 < c.cwnd := lt_of_lt_of_le zero_lt_one h1
        have hinv : 0 ≤ 1 / c.cwnd := by positivity
        exact ⟨by simp only; linarith, h2⟩
  · split
    · next =>
        refine ⟨?_, le_max_right _ _⟩
        have hm : (2 : ℚ) ≤ max (c.cwnd / 2) 2 := le_max_right _ _
        simp only
        linarith
    · split
      · exact ⟨by simp only; linarith, h2⟩
      · exact ⟨h1, h2⟩

theorem cc_bounds_timeout (c : CongestionControl) :
    1 ≤ c.on_timeout.cwnd ∧ 2 ≤ c.on_timeout.ssthresh := by
  unfold CongestionControl.on_timeout
  refine ⟨?_, le_max_right _ _⟩
  norm_num [INITIAL_WINDOW_SIZE]

/-- C10: every reachable congestion-controller state has cwnd at least 1
and ssthresh at least 2 (both hold at initialization and are preserved by
every on_ack_received and on_timeout call), so the effective window
min(int(cwnd), receiver_window, 128) computed by get_window_size is at
least 1 whenever the advertised receiver window is at least 1. -/
theorem reachable_controller_bounds (c : CongestionControl)
    (h : CCReachable c) :
    1 ≤ c.cwnd ∧ 2 ≤ c.ssthresh ∧
      ∀ rw : Nat, 1 ≤ rw → 1 ≤ c.get_window_size rw := by
  have hmain : 1 ≤ c.cwnd ∧ 2 ≤ c.ssthresh := by
    induction h with
    | init =>
        constructor <;>
          norm_num [CongestionControl.init, INITIAL_WINDOW_SIZE,
            INITIAL_SSTHRESH]
    | ack c a hr ih => exact cc_bounds_ack c a ih.1 ih.2
    | timeout c hr ih => exact cc_bounds_timeout c
  exact ⟨hmain.1, hmain.2, fun rw hrw => get_window_size_pos c hmain.1 rw hrw⟩

/-- Witness for C10 at the state reached by one timeout from
initialization, with an advertised receiver window of 1 segment. -/
theorem reachable_controller_bounds_witness :
    1 ≤ CongestionControl.init.on_timeout.cwnd ∧
      2 ≤ CongestionControl.init.on_timeout.ssthresh ∧
      1 ≤ CongestionControl.init.on_timeout.get_window_size 1 := by
  have h := reachable_controller_bounds CongestionControl.init.on_timeout
    (CCReachable.timeout CongestionControl.init CCReachable.init)
  exact ⟨h.1, h.2.1, h.2.2 1 (le_refl 1)⟩

/- Characterizations of _process_ack and _handle_timeout. -/

theorem process_ack_new (now : ℚ) (s : ClientState) (a : Packet)
    (h1 : s.base < a.ack_num) :
    ClientState.process_ack now s a = ({ s with
      receiver_window := a.window
      congestion := s.congestion.on_ack_received a.ack_num
      rtt_estimator := match dictLookup s.send_buffer s.base with
        | some (sp, _) => s.rtt_estimator.update (now - sp.timestamp)
        | none => s.rtt_estimator
      send_buffer := s.send_buffer.filter (fun e => ¬ e.1 < a.ack_num)
      base := a.ack_num }, []) := by
  simp only [ClientState.process_ack]
  rw [if_pos h1]

theorem process_ack_dup (now : ℚ) (s : ClientState) (a : Packet)
    (h1 : ¬ s.base < a.ack_num) :
    ClientState.process_ack now s a = ({ s with
      receiver_window := a.window
      congestion := s.congestion.on_ack_received a.ack_num }, []) := by
  simp only [ClientState.process_ack]
  rw [if_neg h1]

theorem process_ack_sends_nothing (now : ℚ) (s : ClientState) (a : Packet) :
    (ClientState.process_ack now s a).2 = [] := by
  simp only [ClientState.process_ack]
  split <;> rfl

theorem process_ack_congestion (now : ℚ) (s : ClientState) (a : Packet) :
    (ClientState.process_ack now s a).1.congestion =
      s.congestion.on_ack_received a.ack_num := by
  simp only [ClientState.process_ack]
  split <;> rfl

theorem handle_timeout_gives_up (now : ℚ) (s : ClientState)
    (sp : StoredPacket) (r : Nat)
    (hl : dictLookup s.send_buffer s.base = some (sp, r))
    (hr : MAX_RETRIES ≤ r) :
    ClientState.handle_timeout now s =
      ({ s with congestion := s.congestion.on_timeout }, []) := by
  simp only [ClientState.handle_timeout, hl]
  rw [if_pos hr]

theorem handle_timeout_retransmits (now : ℚ) (s : ClientState)
    (sp : StoredPacket) (r : Nat)
    (hl : dictLookup s.send_buffer s.base = some (sp, r))
    (hr : r < MAX_RETRIES) :
    ClientState.handle_timeout now s = ({ s with
      congestion := s.congestion.on_timeout
      retransmissions := s.retransmissions + 1
      send_buffer := dictInsert s.send_buffer s.base
        (⟨{ sp.packet with window := s.window_size }, now⟩, r + 1) },
      [{ sp.packet with window := s.window_size }]) := by
  simp only [ClientState.handle_timeout, hl]
  rw [if_neg (Nat.not_le.mpr hr)]

/- Concrete sender states used by the C3, C4 and C9 examples. -/

/-- A one-byte DATA segment at sequence number 100, stored at time 0. -/
def storedSeg100 : StoredPacket := ⟨⟨100, 0, .DATA, 64, [1]⟩, 0⟩

/-- A sender waiting at base 100 with two duplicate ACKs already counted
by the congestion controller. -/
def thirdDupState : ClientState :=
  { base := 100, next_seq_to_send := 101
    send_buffer := [(100, storedSeg100, 0)]
    receiver_window := 64, window_size := 64
    expected_seq_num := 0, last_ack_sent := 0
    congestion := ⟨10, 64, 2, 100, false⟩
    rtt_estimator := RTTEstimator.init
    retransmissions := 0, total_packets_sent := 1 }

/-- The third duplicate cumulative ACK for base 100. -/
def dupAck100 : Packet := ⟨0, 100, .ACK, 64, []⟩

/-- Counterexample for C3: at a sender state whose congestion controller
has already counted two duplicate ACKs, processing the third duplicate ACK
transmits nothing at all; in particular the segment at base, present in
the send buffer, is not retransmitted.  Retransmission happens only in the
timeout handler. -/
theorem third_dup_ack_transmits_nothing :
    thirdDupState.congestion.duplicate_acks = 2 ∧
      thirdDupState.congestion.in_fast_recovery = false ∧
      dupAck100.ack_num ≤ thirdDupState.congestion.last_ack ∧
      dictLookup thirdDupState.send_buffer thirdDupState.base =
        some (storedSeg100, 0) ∧
      (ClientState.process_ack 0 thirdDupState dupAck100).2 = [] :=
  ⟨rfl, rfl, le_refl 100, rfl, rfl⟩

/-- C3 as amended: processing an ACK never transmits anything (the source
_process_ack only mutates state); on the third duplicate ACK only the
congestion controller reacts, entering fast recovery; the segment at base
is retransmitted only by the timeout handler, when its retry count is
below MAX_RETRIES. -/
theorem ack_processing_never_transmits :
    (∀ (now : ℚ) (s : ClientState) (a : Packet),
      (ClientState.process_ack now s a).2 = []) ∧
    (∀ (now : ℚ) (s : ClientState) (a : Packet),
      a.ack_num ≤ s.congestion.last_ack → s.congestion.duplicate_acks = 2 →
      s.congestion.in_fast_recovery = false →
      (ClientState.process_ack now s a).1.congestion.in_fast_recovery =
        true) ∧
    (∀ (now : ℚ) (s : ClientState) (sp : StoredPacket) (r : Nat),
      dictLookup s.send_buffer s.base = some (sp, r) → r < MAX_RETRIES →
      (ClientState.handle_timeout now s).2 =
        [{ sp.packet with window := s.window_size }]) := by
  refine ⟨fun now s a => process_ack_sends_nothing now s a, ?_, ?_⟩
  · intro now s a h1 h2 h3
    rw [process_ack_congestion,
      cc_third_dup s.congestion a.ack_num (Nat.not_lt.mpr h1) h2 h3]
  · intro now s sp r hl hr
    rw [handle_timeout_retransmits now s sp r hl hr]

/-- Witness for C3 as amended at the concrete third-duplicate state. -/
theorem ack_processing_never_transmits_witness :
    (ClientState.process_ack 0 thirdDupState dupAck100).1.congestion.in_fast_recovery
        = true ∧
      (ClientState.handle_timeout 0 thirdDupState).2 =
        [{ storedSeg100.packet with window := thirdDupState.window_size }] :=
  ⟨ack_processing_never_transmits.2.1 0 thirdDupState dupAck100
      (le_refl 100) rfl rfl,
    ack_processing_never_transmits.2.2 0 thirdDupState storedSeg100 0 rfl
      (by norm_num [MAX_RETRIES])⟩

/-- A sender whose base segment has already been retransmitted 10 times. -/
def maxRetryState : ClientState :=
  { base := 100, next_seq_to_send := 101
    send_buffer := [(100, storedSeg100, 10)]
    receiver_window := 64, window_size := 64
    expected_seq_num := 0, last_ack_sent := 0
    congestion := ⟨10, 64, 0, 100, false⟩
    rtt_estimator := RTTEstimator.init
    retransmissions := 10, total_packets_sent := 1 }

/-- C4 at its failing input: when the base segment has reached 10 retries,
the timeout handler only resets the congestion controller and returns
normally; it raises no error, transmits nothing, and leaves base and
next_seq_to_send unchanged, so the caller's transfer loop condition
base < next_seq_to_send still holds and send_file keeps looping instead of
surfacing a terminal error. -/
theorem max_retries_loops_forever :
    ClientState.handle_timeout 0 maxRetryState =
        ({ maxRetryState with
            congestion := maxRetryState.congestion.on_timeout }, []) ∧
      maxRetryState.base < maxRetryState.next_seq_to_send ∧
      (ClientState.handle_timeout 0 maxRetryState).1.base =
        maxRetryState.base ∧
      (ClientState.handle_timeout 0 maxRetryState).1.next_seq_to_send =
        maxRetryState.next_seq_to_send :=
  ⟨handle_timeout_gives_up 0 maxRetryState storedSeg100 10 rfl (le_refl 10),
    Nat.lt_succ_self 100, rfl, rfl⟩

/-- C9 as amended: when a cumulative ACK genuinely advances the sender
(its ack number exceeds both base and the congestion controller's
last_ack), processing it a second time leaves the whole sender state
(base, next_seq_to_send, send buffer, receiver window, congestion window,
ssthresh, fast-recovery flag, RTT estimator) identical to the state after
the first processing, except that the duplicate-ACK counter goes from 0
to 1. -/
theorem ack_idempotent_after_new (now1 now2 : ℚ) (s : ClientState)
    (a : Packet) (h1 : s.base < a.ack_num)
    (h2 : s.congestion.last_ack < a.ack_num) :
    (ClientState.process_ack now1 s a).1.congestion.duplicate_acks = 0 ∧
      (ClientState.process_ack now2 (ClientState.process_ack now1 s a).1 a).1
        = { (ClientState.process_ack now1 s a).1 with
            congestion :=
              { (ClientState.process_ack now1 s a).1.congestion with
                duplicate_acks := 1 } } := by
  obtain ⟨hd0, hf0, hl0⟩ := cc_new_ack_fields s.congestion a.ack_num h2
  have hs1 := process_ack_new now1 s a h1
  set s1 := (ClientState.process_ack now1 s a).1 with hs1def
  have hbase : s1.base = a.ack_num := by rw [hs1def, hs1]
  have hrw : s1.receiver_window = a.window := by rw [hs1def, hs1]
  have hcong : s1.congestion = s.congestion.on_ack_received a.ack_num := by
    rw [hs1def, hs1]
  have hla : s1.congestion.last_ack = a.ack_num := by rw [hcong]; exact hl0
  have hdd : s1.congestion.duplicate_acks = 0 := by rw [hcong]; exact hd0
  have hff : s1.congestion.in_fast_recovery = false := by rw [hcong]; exact hf0
  constructor
  · exact hdd
  · have hnlt : ¬ s1.base < a.ack_num := by
      rw [hbase]
      exact lt_irrefl _
    rw [process_ack_dup now2 s1 a hnlt]
    have hcc : s1.congestion.on_ack_received a.ack_num =
        { s1.congestion with duplicate_acks := 1 } := by
      rw [cc_dup_quiet s1.congestion a.ack_num
        (by rw [hla]; exact lt_irrefl _) (by rw [hdd]; norm_num) hff, hdd]
    rw [hcc, ← hrw]

/-- A sender at base 10 with a stale congestion state (two duplicates of
ACK 5 counted). -/
def staleDupState : ClientState :=
  { base := 10, next_seq_to_send := 10
    send_buffer := []
    receiver_window := 64, window_size := 64
    expected_seq_num := 0, last_ack_sent := 0
    congestion := ⟨10, 64, 2, 5, false⟩
    rtt_estimator := RTTEstimator.init
    retransmissions := 0, total_packets_sent := 0 }

/-- The stale cumulative ACK 5. -/
def staleAck5 : Packet := ⟨0, 5, .ACK, 64, []⟩

/-- Counterexample for C9: for the sender state with two duplicates of ACK
5 already counted, processing ACK 5 twice does not leave the state equal
up to the duplicate-ACK counter: the second processing crosses the
third-duplicate threshold of the congestion controller and changes cwnd as
well. -/
theorem ack_twice_changes_cwnd :
    (ClientState.process_ack 0
        (ClientState.process_ack 0 staleDupState staleAck5).1 staleAck5).1.congestion.cwnd
      ≠ (ClientState.process_ack 0 staleDupState staleAck5).1.congestion.cwnd := by
  have hn1 : ¬ staleDupState.base < staleAck5.ack_num := by
    norm_num [staleDupState, staleAck5]
  rw [process_ack_dup 0 staleDupState staleAck5 hn1]
  have hcc1 : staleDupState.congestion.on_ack_received staleAck5.ack_num =
      { staleDupState.congestion with
        duplicate_acks := 3
        ssthresh := max (staleDupState.congestion.cwnd / 2) 2
        cwnd := max (staleDupState.congestion.cwnd / 2) 2 + 3
        in_fast_recovery := true } :=
    cc_third_dup staleDupState.congestion staleAck5.ack_num
      (by norm_num [staleDupState, staleAck5]) rfl rfl
  rw [hcc1]
  rw [process_ack_dup 0 _ staleAck5 (by norm_num [staleDupState, staleAck5])]
  rw [cc_dup_in_recovery _ staleAck5.ack_num
    (by norm_num [staleDupState, staleAck5]) rfl]
  simp only [staleDupState]
  norm_num

/- C5: in-order delivery pops at most one buffered successor. -/

theorem dictLookup_none_forall {α : Type} {d : List (Nat × α)} {k : Nat}
    (h : dictLookup d k = none) : ∀ e ∈ d, ¬ e.1 = k := by
  unfold dictLookup at h
  cases hf : d.find? (fun e => e.1 = k) with
  | none =>
      intro e he hek
      have := List.find?_eq_none.mp hf e he
      simp [hek] at this
  | some e =>
      rw [hf] at h
      exact Option.noConfusion h

theorem filter_keys_of_lookup_some {α : Type} {d : List (Nat × α)} {k : Nat}
    {v : α} (hnd : (d.map (fun e => e.1)).Nodup)
    (h : dictLookup d k = some v) :
    (d.map (fun e => e.1)).filter (fun x => x = k) = [k] := by
  have hmem : k ∈ d.map (fun e => e.1) :=
    List.mem_map.mpr ⟨(k, v), dictLookup_some_mem h, rfl⟩
  have hle := List.nodup_iff_count_le_one.mp hnd k
  have hge : 0 < (d.map (fun e => e.1)).count k := List.count_pos_iff.mpr hmem
  have hcount : (d.map (fun e => e.1)).count k = 1 := by omega
  rw [List.filter_eq, hcount, List.replicate_one]

theorem filter_keys_of_lookup_none {α : Type} {d : List (Nat × α)} {k : Nat}
    (h : dictLookup d k = none) :
    (d.map (fun e => e.1)).filter (fun x => x = k) = [] := by
  rw [List.filter_eq_nil_iff]
  intro x hx
  obtain ⟨e, he, hex⟩ := List.mem_map.mp hx
  have := dictLookup_none_forall h e he
  simp only [← hex, decide_eq_true_eq]
  exact this

theorem handle_data_sends_ack (drop : Bool) (s : ServerState) (p : Packet) :
    (ServerState.handle_data_packet drop s p).2 =
      [(ServerState.handle_data_packet drop s p).1.mkAck] := by
  simp only [ServerState.handle_data_packet]
  split <;> rfl

/-- The state with counters advanced and the in-order payload delivered,
before the buffered-successor scan of _handle_data_packet. -/
def afterInOrder (s : ServerState) (p : Packet) : ServerState :=
  { s with
    received_packets := s.received_packets + 1
    delivered := s.delivered ++ p.payload
    total_bytes := s.total_bytes + p.payload.length
    expected_seq_num := s.expected_seq_num + p.payload.length }

theorem handle_data_in_order_pop (s : ServerState) (p : Packet) (bp : Packet)
    (hseq : p.seq_num = s.expected_seq_num)
    (hnd : (s.receive_buffer.map (fun e => e.1)).Nodup)
    (hl : dictLookup s.receive_buffer
        (s.expected_seq_num + p.payload.length) = some bp) :
    ServerState.handle_data_packet false s p =
      (ServerState.update_window_size { afterInOrder s p with
          receive_buffer := dictErase s.receive_buffer
            (s.expected_seq_num + p.payload.length)
          delivered := s.delivered ++ p.payload ++ bp.payload
          total_bytes := s.total_bytes + p.payload.length + bp.payload.length
          expected_seq_num :=
            s.expected_seq_num + p.payload.length + bp.payload.length },
        [(ServerState.update_window_size { afterInOrder s p with
            receive_buffer := dictErase s.receive_buffer
              (s.expected_seq_num + p.payload.length)
            delivered := s.delivered ++ p.payload ++ bp.payload
            total_bytes := s.total_bytes + p.payload.length + bp.payload.length
            expected_seq_num :=
              s.expected_seq_num + p.payload.length + bp.payload.length
            }).mkAck]) := by
  simp only [ServerState.handle_data_packet, Bool.false_eq_true, if_false,
    if_pos hseq, filter_keys_of_lookup_some hnd hl, List.foldl_cons,
    List.foldl_nil, hl, afterInOrder]

theorem handle_data_in_order_nopop (s : ServerState) (p : Packet)
    (hseq : p.seq_num = s.expected_seq_num)
    (hl : dictLookup s.receive_buffer
        (s.expected_seq_num + p.payload.length) = none) :
    ServerState.handle_data_packet false s p =
      (ServerState.update_window_size (afterInOrder s p),
        [(ServerState.update_window_size (afterInOrder s p)).mkAck]) := by
  simp only [ServerState.handle_data_packet, Bool.false_eq_true, if_false,
    if_pos hseq, filter_keys_of_lookup_none hl, List.foldl_nil, afterInOrder]

/- Concrete receiver states for the C5 example. -/

/-- Ten bytes of payload at sequence 0. -/
def pktSeq0 : Packet := ⟨0, 0, .DATA, 64, [1, 1, 1, 1, 1, 1, 1, 1, 1, 1]⟩

/-- Ten bytes of payload at sequence 10. -/
def pktSeq10 : Packet := ⟨10, 0, .DATA, 0, [2, 2, 2, 2, 2, 2, 2, 2, 2, 2]⟩

/-- Ten bytes of payload at sequence 20. -/
def pktSeq20 : Packet := ⟨20, 0, .DATA, 0, [3, 3, 3, 3, 3, 3, 3, 3, 3, 3]⟩

/-- A receiver expecting sequence 0 with segments 10 and 20 both buffered
out of order. -/
def twoBufferedState : ServerState :=
  { sequence_number := 0, expected_seq_num := 0
    receive_buffer := [(10, pktSeq10), (20, pktSeq20)]
    window_size := 64, client_window := 64, processing_bytes := 0
    received_packets := 0, dropped_packets := 0, out_of_order_packets := 0
    total_bytes := 0, delivered := [] }

/-- Counterexample for C5: with the segments at 10 and 20 both buffered
and segment 0 arriving in order, the receiver delivers segments 0 and 10
but NOT the consecutive buffered successor at 20: expected_seq_num ends at
20, not 30, the entry at 20 stays buffered, and the cumulative ACK carries
20.  The candidate list of buffered keys is computed once, so only one
buffered successor can be popped per arrival. -/
theorem buffered_chain_not_fully_delivered :
    (ServerState.handle_data_packet false twoBufferedState pktSeq0).1.expected_seq_num
        = 20 ∧
      dictLookup
          (ServerState.handle_data_packet false twoBufferedState pktSeq0).1.receive_buffer
          20 = some pktSeq20 ∧
      ¬ ((ServerState.handle_data_packet false twoBufferedState pktSeq0).1.expected_seq_num
        = 30) ∧
      (ServerState.handle_data_packet false twoBufferedState pktSeq0).1.delivered
        = pktSeq0.payload ++ pktSeq10.payload ∧
      ((ServerState.handle_data_packet false twoBufferedState pktSeq0).2).map
          (fun q => q.ack_num) = [20] := by
  refine ⟨rfl, rfl, by decide, rfl, rfl⟩

/-- C5 as amended: when a DATA packet with seq == expected_seq_num arrives
(and the loss simulation does not drop it), the receiver delivers its
payload, advances expected_seq_num by the payload length, and then pops
and delivers at most one buffered entry — the one whose key equals the
once-updated expected_seq_num, the candidate list being computed a single
time — before emitting the cumulative ACK, which carries the final
expected_seq_num; consecutive buffered successors beyond the first are not
delivered in the same processing step. -/
theorem in_order_delivery_single_pop (s : ServerState) (p : Packet)
    (hseq : p.seq_num = s.expected_seq_num)
    (hnd : (s.receive_buffer.map (fun e => e.1)).Nodup) :
    (∀ bp : Packet, dictLookup s.receive_buffer
        (s.expected_seq_num + p.payload.length) = some bp →
      (ServerState.handle_data_packet false s p).1.delivered =
          s.delivered ++ p.payload ++ bp.payload ∧
        (ServerState.handle_data_packet false s p).1.expected_seq_num =
          s.expected_seq_num + p.payload.length + bp.payload.length ∧
        (ServerState.handle_data_packet false s p).1.receive_buffer =
          dictErase s.receive_buffer
            (s.expected_seq_num + p.payload.length)) ∧
    (dictLookup s.receive_buffer (s.expected_seq_num + p.payload.length) =
        none →
      (ServerState.handle_data_packet false s p).1.delivered =
          s.delivered ++ p.payload ∧
        (ServerState.handle_data_packet false s p).1.expected_seq_num =
          s.expected_seq_num + p.payload.length ∧
        (ServerState.handle_data_packet false s p).1.receive_buffer =
          s.receive_buffer) ∧
    ((ServerState.handle_data_packet false s p).2).map (fun q => q.ack_num)
      = [(ServerState.handle_data_packet false s p).1.expected_seq_num] := by
  refine ⟨?_, ?_, ?_⟩
  · intro bp hl
    rw [handle_data_in_order_pop s p bp hseq hnd hl]
    exact ⟨rfl, rfl, rfl⟩
  · intro hl
    rw [handle_data_in_order_nopop s p hseq hl]
    exact ⟨rfl, rfl, rfl⟩
  · rw [handle_data_sends_ack]
    rfl

/-- A receiver expecting sequence 0 with only segment 10 buffered. -/
def oneBufferedState : ServerState :=
  { sequence_number := 0, expected_seq_num := 0
    receive_buffer := [(10, pktSeq10)]
    window_size := 64, client_window := 64, processing_bytes := 0
    received_packets := 0, dropped_packets := 0, out_of_order_packets := 0
    total_bytes := 0, delivered := [] }

/-- Witness for C5 as amended: segment 0 arrives while segment 10 is
buffered; both are delivered and the buffer entry at 10 is popped. -/
theorem in_order_delivery_single_pop_witness :
    (ServerState.handle_data_packet false oneBufferedState pktSeq0).1.delivered =
        oneBufferedState.delivered ++ pktSeq0.payload ++ pktSeq10.payload ∧
      (ServerState.handle_data_packet false oneBufferedState pktSeq0).1.expected_seq_num =
        oneBufferedState.expected_seq_num + pktSeq0.payload.length +
          pktSeq10.payload.length ∧
      (ServerState.handle_data_packet false oneBufferedState pktSeq0).1.receive_buffer =
        dictErase oneBufferedState.receive_buffer
          (oneBufferedState.expected_seq_num + pktSeq0.payload.length) :=
  (in_order_delivery_single_pop oneBufferedState pktSeq0 rfl (by decide)).1
    pktSeq10 rfl

/- Correspondence of the end-to-end model with the detailed embeddings:
the receiver step of the Config system computes exactly the
expected_seq_num, reassembly buffer (viewed through payloads) and
delivered stream of ReliableUDPServer._handle_data_packet, and the ACK
consumption step computes exactly the base and send-buffer (viewed
through payloads) of ReliableUDPClient._process_ack. -/

/-- Payload view of the receiver's reassembly buffer. -/
def rbufView (d : List (Nat × Packet)) : List (Nat × List Byte) :=
  d.map (fun e => (e.1, e.2.payload))

/-- Payload view of the sender's retransmission buffer. -/
def sbufView (d : List (Nat × StoredPacket × Nat)) : List (Nat × List Byte) :=
  d.map (fun e => (e.1, e.2.1.packet.payload))

theorem dictLookup_rbufView (d : List (Nat × Packet)) (k : Nat) :
    dictLookup (rbufView d) k = (dictLookup d k).map (fun q => q.payload) := by
  unfold dictLookup rbufView
  induction d with
  | nil => rfl
  | cons e d ih =>
      by_cases hek : e.1 = k
      · simp [List.find?_cons, hek]
      · simpa [List.find?_cons, hek] using ih

theorem dictErase_rbufView (d : List (Nat × Packet)) (k : Nat) :
    dictErase (rbufView d) k = rbufView (dictErase d k) := by
  unfold dictErase rbufView
  rw [List.filter_map]
  congr 1

theorem dictInsert_rbufView (d : List (Nat × Packet)) (k : Nat) (p : Packet) :
    dictInsert (rbufView d) k p.payload = rbufView (dictInsert d k p) := by
  unfold dictInsert rbufView
  have hany : (d.map (fun e => (e.1, e.2.payload))).any (fun e => e.1 = k) =
      d.any (fun e => e.1 = k) := by
    induction d with
    | nil => rfl
    | cons e d ih => simp [List.any_cons, ih]
  rw [hany]
  by_cases hc : d.any (fun e => e.1 = k)
  · rw [if_pos hc, if_pos hc, List.map_map, List.map_map]
    congr 1
    funext e
    by_cases hek : e.1 = k <;> simp [hek]
  · rw [if_neg hc, if_neg hc]
    simp

theorem filter_sbufView (d : List (Nat × StoredPacket × Nat)) (a : Nat) :
    (sbufView d).filter (fun e => ¬ e.1 < a) =
      sbufView (d.filter (fun e => ¬ e.1 < a)) := by
  unfold sbufView
  rw [List.filter_map]
  congr 1

theorem recvStep_matches_server (c : Config) (s : ServerState) (p : Packet)
    (he : c.rExpected = s.expected_seq_num)
    (hb : c.rBuf = rbufView s.receive_buffer)
    (hd : c.delivered = s.delivered)
    (hnd : (s.receive_buffer.map (fun e => e.1)).Nodup) :
    (recvStep c p.seq_num p.payload).rExpected =
        (ServerState.handle_data_packet false s p).1.expected_seq_num ∧
      (recvStep c p.seq_num p.payload).delivered =
        (ServerState.handle_data_packet false s p).1.delivered ∧
      (recvStep c p.seq_num p.payload).rBuf =
        rbufView (ServerState.handle_data_packet false s p).1.receive_buffer := by
  by_cases hse : p.seq_num = c.rExpected
  · have hse2 : p.seq_num = s.expected_seq_num := by rw [hse, he]
    cases hq : dictLookup s.receive_buffer
        (s.expected_seq_num + p.payload.length) with
    | some bp =>
        have hqv : dictLookup c.rBuf (c.rExpected + p.payload.length) =
            some bp.payload := by
          rw [hb, he, dictLookup_rbufView, hq]
          rfl
        have h1 : (recvStep c p.seq_num p.payload).rExpected =
            c.rExpected + p.payload.length + bp.payload.length := by
          simp [recvStep, hse, hqv]
        have h2 : (recvStep c p.seq_num p.payload).delivered =
            c.delivered ++ p.payload ++ bp.payload := by
          simp [recvStep, hse, hqv]
        have h3 : (recvStep c p.seq_num p.payload).rBuf =
            dictErase c.rBuf (c.rExpected + p.payload.length) := by
          simp [recvStep, hse, hqv]
        rw [handle_data_in_order_pop s p bp hse2 hnd hq, h1, h2, h3]
        refine ⟨?_, ?_, ?_⟩
        · simp [ServerState.update_window_size, afterInOrder, he]
        · simp [ServerState.update_window_size, afterInOrder, hd]
        · simp only [ServerState.update_window_size, afterInOrder]
          rw [hb, he, dictErase_rbufView]
    | none =>
        have hqv : dictLookup c.rBuf (c.rExpected + p.payload.length) =
            none := by
          rw [hb, he, dictLookup_rbufView, hq]
          rfl
        have h1 : (recvStep c p.seq_num p.payload).rExpected =
            c.rExpected + p.payload.length := by
          simp [recvStep, hse, hqv]
        have h2 : (recvStep c p.seq_num p.payload).delivered =
            c.delivered ++ p.payload := by
          simp [recvStep, hse, hqv]
        have h3 : (recvStep c p.seq_num p.payload).rBuf = c.rBuf := by
          simp [recvStep, hse, hqv]
        rw [handle_data_in_order_nopop s p hse2 hq, h1, h2, h3]
        refine ⟨?_, ?_, ?_⟩
        · simp [ServerState.update_window_size, afterInOrder, he]
        · simp [ServerState.update_window_size, afterInOrder, hd]
        · simp only [ServerState.update_window_size, afterInOrder]
          exact hb
  · have hse2 : ¬ p.seq_num = s.expected_seq_num := by rw [← he]; exact hse
    by_cases hlt : c.rExpected < p.seq_num
    · have hlt2 : s.expected_seq_num < p.seq_num := by rw [← he]; exact hlt
      have g1 : (ServerState.handle_data_packet false s p).1.expected_seq_num
          = s.expected_seq_num := by
        simp [ServerState.handle_data_packet, hse2, hlt2,
          ServerState.update_window_size]
      have g2 : (ServerState.handle_data_packet false s p).1.delivered
          = s.delivered := by
        simp [ServerState.handle_data_packet, hse2, hlt2,
          ServerState.update_window_size]
      have g3 : (ServerState.handle_data_packet false s p).1.receive_buffer
          = dictInsert s.receive_buffer p.seq_num p := by
        simp [ServerState.handle_data_packet, hse2, hlt2,
          ServerState.update_window_size]
      rw [g1, g2, g3]
      refine ⟨?_, ?_, ?_⟩
      · simp [recvStep, hse, hse2, hlt, hlt2, he]
      · simp [recvStep, hse, hse2, hlt, hlt2, hd]
      · have h3 : (recvStep c p.seq_num p.payload).rBuf =
            dictInsert c.rBuf p.seq_num p.payload := by
          simp [recvStep, hse, hlt]
        rw [h3, hb, dictInsert_rbufView]
    · have hlt2 : ¬ s.expected_seq_num < p.seq_num := by
        rw [← he]
        exact hlt
      have g1 : (ServerState.handle_data_packet false s p).1.expected_seq_num
          = s.expected_seq_num := by
        simp [ServerState.handle_data_packet, hse2, hlt2,
          ServerState.update_window_size]
      have g2 : (ServerState.handle_data_packet false s p).1.delivered
          = s.delivered := by
        simp [ServerState.handle_data_packet, hse2, hlt2,
          ServerState.update_window_size]
      have g3 : (ServerState.handle_data_packet false s p).1.receive_buffer
          = s.receive_buffer := by
        simp [ServerState.handle_data_packet, hse2, hlt2,
          ServerState.update_window_size]
      rw [g1, g2, g3]
      refine ⟨?_, ?_, ?_⟩
      · simp [recvStep, hse, hse2, hlt, hlt2, he]
      · simp [recvStep, hse, hse2, hlt, hlt2, hd]
      · simp [recvStep, hse, hse2, hlt, hlt2, hb]

theorem ackStep_matches_client (now : ℚ) (c : Config) (s : ClientState)
    (a : Packet) (hb : c.sBase = s.base)
    (hbuf : c.sBuf = sbufView s.send_buffer) :
    (ackStep c a.ack_num).sBase =
        (ClientState.process_ack now s a).1.base ∧
      (ackStep c a.ack_num).sBuf =
        sbufView (ClientState.process_ack now s a).1.send_buffer := by
  by_cases h1 : s.base < a.ack_num
  · have h1c : c.sBase < a.ack_num := by rw [hb]; exact h1
    rw [process_ack_new now s a h1]
    refine ⟨?_, ?_⟩
    · show (ackStep c a.ack_num).sBase = a.ack_num
      simp [ackStep, h1c]
    · show (ackStep c a.ack_num).sBuf =
        sbufView (s.send_buffer.filter (fun e => ¬ e.1 < a.ack_num))
      have h3 : (ackStep c a.ack_num).sBuf =
          c.sBuf.filter (fun e => ¬ e.1 < a.ack_num) := by
        simp [ackStep, h1c]
      rw [h3, hbuf, filter_sbufView]
  · have h1c : ¬ c.sBase < a.ack_num := by rw [hb]; exact h1
    rw [process_ack_dup now s a h1]
    refine ⟨?_, ?_⟩
    · show (ackStep c a.ack_num).sBase = s.base
      simp [ackStep, h1c, h1, hb]
    · show (ackStep c a.ack_num).sBuf = sbufView s.send_buffer
      simp [ackStep, h1c, h1, hbuf]

/-- A sender at base 10 about to receive the fresh cumulative ACK 20. -/
def newAckState : ClientState :=
  { base := 10, next_seq_to_send := 20
    send_buffer := [(10, storedSeg100, 0)]
    receiver_window := 64, window_size := 64
    expected_seq_num := 0, last_ack_sent := 0
    congestion := ⟨4, 64, 0, 5, false⟩
    rtt_estimator := RTTEstimator.init
    retransmissions := 0, total_packets_sent := 1 }

/-- The fresh cumulative ACK 20. -/
def advAck20 : Packet := ⟨0, 20, .ACK, 64, []⟩

/-- Witness for C9 as amended at the fresh-ACK state. -/
theorem ack_idempotent_after_new_witness :
    (ClientState.process_ack 0 newAckState advAck20).1.congestion.duplicate_acks
        = 0 ∧
      (ClientState.process_ack 0
          (ClientState.process_ack 0 newAckState advAck20).1 advAck20).1
        = { (ClientState.process_ack 0 newAckState advAck20).1 with
            congestion :=
              { (ClientState.process_ack 0 newAckState advAck20).1.congestion
                  with duplicate_acks := 1 } } :=
  ack_idempotent_after_new 0 0 newAckState advAck20
    (by norm_num [newAckState, advAck20])
    (by norm_num [newAckState, advAck20])

end RUDP
